import Mathlib

/-!
Verification of the bmdse Speed Editor driver: a shallow embedding of the
report codec, the authentication response derivation, and the session loop's
LED-push / poll / dispatch phases (src/driver.rs, src/lib.rs), with theorems
checking the specification's claims against them.

Machine integers are modelled as `Nat` (with explicit bounds `< 2^64` etc.
where overflow matters); fallible Rust functions returning
`Result<_, crate::Error>` become `Except String _` carrying the source's
error message strings.
-/

namespace Bmdse

/-! ### Authentication response derivation (driver.rs, `bmd_kbd_auth`) -/

/-- One 64-bit right rotation by 8 bits (`v.rotate_right(8)` on a `u64`),
on naturals below `2^64`. -/
def rot8 (v : Nat) : Nat := v / 2 ^ 8 + v % 2 ^ 8 * 2 ^ 56

/-- `n` iterated applications of `rot8`: the source's `ror8n` closure
(`for _ in 0..n { v = v.rotate_right(8) }`). -/
def ror8n (v : Nat) : Nat → Nat
  | 0 => v
  | n + 1 => rot8 (ror8n v n)

/-- General 64-bit right rotation by `k` bits on naturals below `2^64`,
used for the claim-side model of "right-rotated by `n` bytes". -/
def rotr64 (v k : Nat) : Nat := v / 2 ^ k + v % 2 ^ k * 2 ^ (64 - k)

/-- driver.rs `AUTH_EVEN_TBL`. -/
def AUTH_EVEN_TBL : List Nat :=
  [0x3ae1206f97c10bc8, 0x2a9ab32bebf244c6, 0x20a6f8b8df9adf0a, 0xaf80ece52cfc1719,
   0xec2ee2f7414fd151, 0xb055adfd73344a15, 0xa63d2e3059001187, 0x751bf623f42e0dde]

/-- driver.rs `AUTH_ODD_TBL`. -/
def AUTH_ODD_TBL : List Nat :=
  [0x3e22b34f502e7fde, 0x24656b981875ab1c, 0xa17f3456df7bf8c3, 0x6df72e1941aef698,
   0x72226f011e66ab94, 0x3831a3c606296b42, 0xfd7ff81881332c89, 0x61a3f6474ff236c6]

/-- driver.rs `MASK`. -/
def MASK : Nat := 0xa79a63f585d37bf0

/-- driver.rs `bmd_kbd_auth`, translated line by line: the byte rotation is
the source's iterated 8-bit rotation. -/
def bmd_kbd_auth (challenge : Nat) : Nat :=
  let n := challenge &&& 7
  let v := ror8n challenge n
  if v &&& 1 = (0x78 >>> n) &&& 1 then
    let k := AUTH_EVEN_TBL.getD n 0
    v ^^^ (rot8 v &&& MASK) ^^^ k
  else
    let v2 := v ^^^ rot8 v
    let k := AUTH_ODD_TBL.getD n 0
    v2 ^^^ (rot8 v2 &&& MASK) ^^^ k

/-- The claim's formula for the response derivation, following its words:
`v = challenge right-rotated by n bytes` is a single rotation by `8 * n`
bits; everything else as stated in the claim. To be compared with
`bmd_kbd_auth`, the translation of the source. -/
def bmd_kbd_auth_claim (challenge : Nat) : Nat :=
  let n := challenge &&& 7
  let v := rotr64 challenge (8 * n)
  if v &&& 1 = (0x78 >>> n) &&& 1 then
    let k := AUTH_EVEN_TBL.getD n 0
    v ^^^ (rotr64 v 8 &&& MASK) ^^^ k
  else
    let v2 := v ^^^ rotr64 v 8
    let k := AUTH_ODD_TBL.getD n 0
    v2 ^^^ (rotr64 v2 8 &&& MASK) ^^^ k

/-! ### Report codec (driver.rs, `Report`, `Button`, `WheelMode`) -/

/-- driver.rs `WheelMode`. -/
inductive WheelMode
  | Relative
  | AbsoluteContinuous
  | AbsoluteDeadZero
deriving DecidableEq, Repr

/-- driver.rs `Button`: the closed enumeration of physical keys. -/
inductive Button
  | SmartInsert | Append | RippleOverwrite | CloseUp | PlaceOnTop | SourceOverwrite
  | In | Out | TrimIn | TrimOut | Roll | SlipSource | SlipDestination
  | TransitionDuration | Cut | Dissolve | SmoothCut
  | Escape | SyncBin | AudioLevel | FullView | Transition | Split | Snap | RippleDelete
  | Cam1 | Cam2 | Cam3 | Cam4 | Cam5 | Cam6 | Cam7 | Cam8 | Cam9
  | LiveOverwrite | VideoOnly | AudioOnly | StopPlay
  | Source | Timeline
  | Shuttle | Jog | Scroll
deriving DecidableEq, Repr

/-- driver.rs `impl TryFrom<u16> for Button`. -/
def button_tryFrom (value : Nat) : Except String Button :=
  match value with
  | 0x0001 => .ok .SmartInsert
  | 0x0002 => .ok .Append
  | 0x0003 => .ok .RippleOverwrite
  | 0x0004 => .ok .CloseUp
  | 0x0005 => .ok .PlaceOnTop
  | 0x0006 => .ok .SourceOverwrite
  | 0x0007 => .ok .In
  | 0x0008 => .ok .Out
  | 0x0009 => .ok .TrimIn
  | 0x000a => .ok .TrimOut
  | 0x000b => .ok .Roll
  | 0x000c => .ok .SlipSource
  | 0x000d => .ok .SlipDestination
  | 0x000e => .ok .TransitionDuration
  | 0x000f => .ok .Cut
  | 0x0010 => .ok .Dissolve
  | 0x0011 => .ok .SmoothCut
  | 0x0031 => .ok .Escape
  | 0x001f => .ok .SyncBin
  | 0x002c => .ok .AudioLevel
  | 0x002d => .ok .FullView
  | 0x0022 => .ok .Transition
  | 0x002f => .ok .Split
  | 0x002e => .ok .Snap
  | 0x002b => .ok .RippleDelete
  | 0x0033 => .ok .Cam1
  | 0x0034 => .ok .Cam2
  | 0x0035 => .ok .Cam3
  | 0x0036 => .ok .Cam4
  | 0x0037 => .ok .Cam5
  | 0x0038 => .ok .Cam6
  | 0x0039 => .ok .Cam7
  | 0x003a => .ok .Cam8
  | 0x003b => .ok .Cam9
  | 0x0030 => .ok .LiveOverwrite
  | 0x0025 => .ok .VideoOnly
  | 0x0026 => .ok .AudioOnly
  | 0x003c => .ok .StopPlay
  | 0x001a => .ok .Source
  | 0x001b => .ok .Timeline
  | 0x001c => .ok .Shuttle
  | 0x001d => .ok .Jog
  | 0x001e => .ok .Scroll
  | _ => .error "invalid button value received"

/-- driver.rs `impl TryFrom<u8> for WheelMode`: 0x00 and 0x02 both decode to
`Relative`. -/
def wheelMode_tryFrom (value : Nat) : Except String WheelMode :=
  match value with
  | 0x00 => .ok .Relative
  | 0x01 => .ok .AbsoluteContinuous
  | 0x02 => .ok .Relative
  | 0x03 => .ok .AbsoluteDeadZero
  | _ => .error "received invalid wheel mode"

/-- `u16::from_le_bytes([b0, b1])`. -/
def u16_from_le_bytes (b0 b1 : Nat) : Nat := b0 + b1 * 256

/-- `i32::from_le_bytes([b0, b1, b2, b3])` as a mathematical integer:
the unsigned little-endian value reinterpreted in two's complement. -/
def i32_from_le_bytes (b0 b1 b2 b3 : Nat) : Int :=
  let u := b0 + b1 * 256 + b2 * 65536 + b3 * 16777216
  if u < 2 ^ 31 then (u : Int) else (u : Int) - 2 ^ 32

/-- driver.rs `Report`. -/
inductive Report
  | Wheel (mode : WheelMode) (value : Int)
  | Buttons (buttons : List Button)
  | Battery (charging : Bool) (level : Nat)
deriving DecidableEq, Repr

/-- The button-slot scan of `Report::try_from`'s 0x04 arm: walk
`bytes[1..13].chunks(2)` in order, skip `0x0000` slots, fail on the first
slot value with no `Button` mapping (the `?` operator aborts the whole
decode). -/
def parseButtonBytes : List Nat → Except String (List Button)
  | lo :: hi :: rest =>
    let val := u16_from_le_bytes lo hi
    if val ≠ 0 then
      match button_tryFrom val, parseButtonBytes rest with
      | .ok b, .ok bs => .ok (b :: bs)
      | .error e, _ => .error e
      | .ok _, .error e => .error e
    else
      parseButtonBytes rest
  | _ => .ok []

/-- The six 16-bit little-endian slot values of a button report payload
(chunks of two bytes, in wire order). -/
def slotValues : List Nat → List Nat
  | lo :: hi :: rest => u16_from_le_bytes lo hi :: slotValues rest
  | _ => []

/-- driver.rs `impl TryFrom<&[u8]> for Report`, on the raw byte list. -/
def report_tryFrom : List Nat → Except String Report
  | [] => .error ""
  | report_id :: rest =>
    if report_id = 0x03 then
      match rest with
      | [m, b2, b3, b4, b5, _b6] =>
        match wheelMode_tryFrom m with
        | .ok mode => .ok (.Wheel mode (i32_from_le_bytes b2 b3 b4 b5))
        | .error e => .error e
      | _ => .error "invalid length for wheel report"
    else if report_id = 0x04 then
      if rest.length = 12 then
        match parseButtonBytes rest with
        | .ok bs => .ok (.Buttons bs)
        | .error e => .error e
      else .error "invalid length for button report"
    else if report_id = 0x07 then
      match rest with
      | [b1, b2] => .ok (.Battery (b1 == 0x01) b2)
      | _ => .error "invalid length for battery report"
    else .error "unknown report"

/-! ### LED commands (driver.rs, `ButtonLed`, `WheelLed`, `set_button_led`,
`set_wheel_led`) -/

/-- driver.rs `ButtonLed`: a bitmask enumeration; `Off` is zero. -/
inductive ButtonLed
  | Off
  | CloseUp | Cut | Dissolve | SmoothCut | Transition | Snap
  | Cam7 | Cam8 | Cam9 | LiveOverwrite | Cam4 | Cam5 | Cam6
  | VideoOnly | Cam1 | Cam2 | Cam3 | AudioOnly
deriving DecidableEq, Repr

/-- The `repr(u32)` discriminant of each `ButtonLed` value. -/
def ButtonLed.mask : ButtonLed → Nat
  | .Off => 0
  | .CloseUp => 1 <<< 0
  | .Cut => 1 <<< 1
  | .Dissolve => 1 <<< 2
  | .SmoothCut => 1 <<< 3
  | .Transition => 1 <<< 4
  | .Snap => 1 <<< 5
  | .Cam7 => 1 <<< 6
  | .Cam8 => 1 <<< 7
  | .Cam9 => 1 <<< 8
  | .LiveOverwrite => 1 <<< 9
  | .Cam4 => 1 <<< 10
  | .Cam5 => 1 <<< 11
  | .Cam6 => 1 <<< 12
  | .VideoOnly => 1 <<< 13
  | .Cam1 => 1 <<< 14
  | .Cam2 => 1 <<< 15
  | .Cam3 => 1 <<< 16
  | .AudioOnly => 1 <<< 17

/-- driver.rs `WheelLed`. -/
inductive WheelLed
  | Off
  | Jog | Shuttle | Scroll
deriving DecidableEq, Repr

/-- The `repr(u32)` discriminant of each `WheelLed` value. -/
def WheelLed.mask : WheelLed → Nat
  | .Off => 0
  | .Jog => 1 <<< 0
  | .Shuttle => 1 <<< 1
  | .Scroll => 1 <<< 2

/-- `u32::to_le_bytes`: the four little-endian bytes of a 32-bit value. -/
def le32 (v : Nat) : List Nat :=
  [v % 256, v / 256 % 256, v / 65536 % 256, v / 16777216 % 256]

/-- driver.rs `set_button_led`: the 5-byte buffer written to the device
(tag `0x02`, then the 32-bit mask little-endian). -/
def set_button_led_bytes (led : ButtonLed) : List Nat := 0x02 :: le32 led.mask

/-- driver.rs `set_wheel_led`: the 2-byte buffer written to the device
(tag `0x04`, then the mask byte). -/
def set_wheel_led_bytes (led : WheelLed) : List Nat := [0x04, led.mask]

/-! ### Session loop (lib.rs, `poller` and `Inner`) -/

/-- The callback-relevant fields of lib.rs `Inner`: the stored pressed set
and the two LED targets (callback registration itself carries no state the
claims speak about, so events stand for invocations of a registered
callback). -/
structure InnerState where
  pressed_buttons : List Button
  button_led : ButtonLed
  wheel_led : WheelLed
deriving DecidableEq, Repr

/-- One callback invocation made by the session loop. -/
inductive Event
  | wheelChange (velocity : Int)
  | buttonChange (button : Button) (pressed : Bool)
  | batteryInfo (charging : Bool) (level : Nat)
deriving DecidableEq, Repr

/-- The button-change invocations of one buttons dispatch (lib.rs 284–296):
first, for every previously pressed button not in the new list, `(b, false)`
in the stored order; then `(b, true)` for every button of the new list, in
wire order. -/
def buttonEvents (prev cur : List Button) : List (Button × Bool) :=
  (prev.filter (fun b => decide (b ∉ cur))).map (fun b => (b, false))
    ++ cur.map (fun b => (b, true))

/-- The buttons dispatch (lib.rs 277–296) with the stored pressed set
visible at each invocation: the source assigns
`inner_guard.pressed_buttons = buttons.clone()` first, then runs the two
callback loops, so each invocation is paired with the pressed set the
shared state holds at that moment (program order). -/
def dispatchButtonsSteps (inner : InnerState) (buttons : List Button) :
    InnerState × List ((Button × Bool) × List Button) :=
  let prev_pressed := inner.pressed_buttons
  let inner1 := { inner with pressed_buttons := buttons }
  (inner1, (buttonEvents prev_pressed buttons).map (fun e => (e, inner1.pressed_buttons)))

/-- The dispatch phase of one loop iteration (lib.rs 267–305): wheel reports
fire the wheel callback only in `Relative` mode; buttons reports update the
pressed set and fire edge/level events; battery reports fire the battery
callback. -/
def dispatch (inner : InnerState) (r : Report) : InnerState × List Event :=
  match r with
  | .Wheel mode value =>
    (inner, if mode = .Relative then [.wheelChange value] else [])
  | .Buttons buttons =>
    let d := dispatchButtonsSteps inner buttons
    (d.1, d.2.map (fun e => .buttonChange e.1.1 e.1.2))
  | .Battery charging level => (inner, [.batteryInfo charging level])

/-- The loop's last-pushed LED caches (lib.rs `last_button_led`,
`last_wheel_led`), `none` before anything has been pushed. -/
structure LedCache where
  last_button_led : Option ButtonLed
  last_wheel_led : Option WheelLed
deriving DecidableEq, Repr

/-- The LED-push phase of one loop iteration (lib.rs 247–257): for each
channel, if the cache is `none` or differs from the current target, write
the encoded command and update the cache. Returns the new caches and the
buffers written, button command first. -/
def ledPhase (cache : LedCache) (bl : ButtonLed) (wl : WheelLed) :
    LedCache × List (List Nat) :=
  let pb : List (List Nat) × Option ButtonLed :=
    match cache.last_button_led with
    | none => ([set_button_led_bytes bl], some bl)
    | some last => if last ≠ bl then ([set_button_led_bytes bl], some bl) else ([], some last)
  let pw : List (List Nat) × Option WheelLed :=
    match cache.last_wheel_led with
    | none => ([set_wheel_led_bytes wl], some wl)
    | some last => if last ≠ wl then ([set_wheel_led_bytes wl], some wl) else ([], some last)
  (⟨pb.2, pw.2⟩, pb.1 ++ pw.1)

/-- One poll of the transport, as seen by the loop: either the read call
itself failed, or it returned `bs` (a zero-length `bs` is a timeout). -/
inductive PollInput
  | readError
  | bytes (bs : List Nat)
deriving DecidableEq, Repr

/-- driver.rs `poll`: a read error, an empty (timed-out) read, and a decode
failure each produce an error; otherwise the decoded report. -/
def poll_model : PollInput → Except String Report
  | .readError => .error "failed to read"
  | .bytes bs =>
    if bs.length = 0 then .error "received empty report"
    else
      match report_tryFrom bs with
      | .ok r => .ok r
      | .error _ => .error "failed to parse report"

/-- How one loop iteration ended: `yielded` is the `Err(_) => { yield_now();
continue }` arm (the loop keeps running), `handled` means a report was
dispatched. -/
inductive IterOutcome
  | yielded
  | handled
deriving DecidableEq, Repr

/-- The observable outcome of one loop iteration. -/
structure IterResult where
  inner : InnerState
  cache : LedCache
  ledWrites : List (List Nat)
  events : List Event
  outcome : IterOutcome
deriving DecidableEq, Repr

/-- One iteration of lib.rs `poller`'s loop body, after the authentication
check (modelled separately): LED-push phase, then poll, then — only on a
successful poll — the dispatch phase. -/
def pollerIteration (inner : InnerState) (cache : LedCache) (input : PollInput) :
    IterResult :=
  let lc := ledPhase cache inner.button_led inner.wheel_led
  match poll_model input with
  | .error _ => ⟨inner, lc.1, lc.2, [], .yielded⟩
  | .ok r =>
    let d := dispatch inner r
    ⟨d.1, lc.1, lc.2, d.2, .handled⟩

/-! ### Authentication scheduling (lib.rs 234–245)

The source initializes `auth_time = 600`, takes `auth_instant = Instant::now()`
once, runs `authenticate` discarding its returned interval, and then each
iteration re-authenticates iff `auth_instant.elapsed() >= auth_time - 5`,
assigning the handshake's return to `auth_time` but never resetting
`auth_instant`. -/

/-- One iteration's authentication check as the code performs it:
`t` is the current `auth_time`, `e` the elapsed seconds since the single
`auth_instant` taken before the loop, `ret` the interval the handshake
would return. Yields whether a handshake ran and the next `auth_time`. -/
def codeAuthStep (t e ret : Nat) : Bool × Nat :=
  if t - 5 ≤ e then (true, ret) else (false, t)

/-- Runs `codeAuthStep` over a list of iterations, each given as
`(elapsed-since-loop-start, handshake-return)`; initial `auth_time` is `t`.
Per the source, the initial value is 600 and the pre-loop handshake's return
is discarded. Yields, per iteration, whether a handshake ran. -/
def codeAuthRun (t : Nat) : List (Nat × Nat) → List Bool
  | [] => []
  | (e, ret) :: rest =>
    let s := codeAuthStep t e ret
    s.1 :: codeAuthRun s.2 rest

/-- The claim's schedule, following its words: re-run the handshake exactly
when the elapsed time since the LAST successful authentication is at least
`interval − 5`, where `interval` is the most recent handshake's return.
State is `(interval, lastAuth)` with `lastAuth` the elapsed-time stamp of
the last successful handshake. -/
def claimAuthStep (interval lastAuth e ret : Nat) : Bool × Nat × Nat :=
  if interval - 5 ≤ e - lastAuth then (true, ret, e) else (false, interval, lastAuth)

/-- Runs `claimAuthStep` over a list of `(elapsed, handshake-return)`
iterations. -/
def claimAuthRun (interval lastAuth : Nat) : List (Nat × Nat) → List Bool
  | [] => []
  | (e, ret) :: rest =>
    let s := claimAuthStep interval lastAuth e ret
    s.1 :: claimAuthRun s.2.1 s.2.2 rest

theorem rot8_eq_rotr64_8 (v : Nat) : rot8 v = rotr64 v 8 := rfl

theorem ror8n_eq_rotr64 (v : Nat) (n : Nat) (hn : n < 8) :
    ror8n v n = rotr64 v (8 * n) := by
  interval_cases n <;> simp only [ror8n, rotr64, rot8] <;> norm_num <;> omega

theorem bmd_kbd_auth_eq_claim (c : Nat) :
    bmd_kbd_auth c = bmd_kbd_auth_claim c := by
  have h7 : c &&& 7 < 8 := Nat.and_lt_two_pow c (by norm_num : (7 : Nat) < 2 ^ 3)
  simp only [bmd_kbd_auth, bmd_kbd_auth_claim]
  rw [ror8n_eq_rotr64 c (c &&& 7) h7]
  simp only [show ∀ x : Nat, rotr64 x 8 = rot8 x from fun _ => rfl]

theorem rot8_lt_two_pow (v : Nat) (h : v < 2 ^ 64) : rot8 v < 2 ^ 64 := by
  simp only [rot8]
  norm_num
  omega

theorem ror8n_lt_two_pow (v : Nat) (h : v < 2 ^ 64) (n : Nat) : ror8n v n < 2 ^ 64 := by
  induction n with
  | zero => exact h
  | succ k ih => exact rot8_lt_two_pow _ ih

theorem auth_tbl_getD_lt (n : Nat) :
    AUTH_EVEN_TBL.getD n 0 < 2 ^ 64 ∧ AUTH_ODD_TBL.getD n 0 < 2 ^ 64 := by
  match n with
  | 0 | 1 | 2 | 3 | 4 | 5 | 6 | 7 => exact ⟨by decide, by decide⟩
  | n + 8 =>
    simp only [AUTH_EVEN_TBL, AUTH_ODD_TBL, List.getD_cons_succ, List.getD_nil]
    norm_num

theorem bmd_kbd_auth_lt (c : Nat) (hc : c < 2 ^ 64) : bmd_kbd_auth c < 2 ^ 64 := by
  have hvlt : ror8n c (c &&& 7) < 2 ^ 64 := ror8n_lt_two_pow c hc _
  have hmask : MASK < 2 ^ 64 := by norm_num [MASK]
  simp only [bmd_kbd_auth]
  split
  · exact Nat.xor_lt_two_pow
      (Nat.xor_lt_two_pow hvlt (Nat.and_lt_two_pow _ hmask)) (auth_tbl_getD_lt _).1
  · exact Nat.xor_lt_two_pow
      (Nat.xor_lt_two_pow (Nat.xor_lt_two_pow hvlt (rot8_lt_two_pow _ hvlt))
        (Nat.and_lt_two_pow _ hmask))
      (auth_tbl_getD_lt _).2

/-- C2: the authentication response derivation of `bmd_kbd_auth` is a pure,
deterministic function of the 64-bit challenge, computed exactly by the
claim's formula (`bmd_kbd_auth_claim`: `n = challenge & 7`, `v` the
challenge right-rotated by `n` bytes, table selection by the
`(v & 1) == ((0x78 >> n) & 1)` test, result
`v XOR ((v ror 8) AND MASK) XOR k`), and the result fits in 64 bits, so its
little-endian encoding is exactly 8 bytes. Determinism is inherent: the
embedding is a function of the challenge alone. -/
theorem C2_auth_response_derivation (c : Nat) (hc : c < 2 ^ 64) :
    bmd_kbd_auth c = bmd_kbd_auth_claim c ∧ bmd_kbd_auth c < 2 ^ 64 :=
  ⟨bmd_kbd_auth_eq_claim c, bmd_kbd_auth_lt c hc⟩

/-- Witness for C2 at the concrete challenge `0x123456789abcdef3`. -/
theorem C2_auth_response_derivation_witness :
    (0x123456789abcdef3 : Nat) < 2 ^ 64 ∧
      (bmd_kbd_auth 0x123456789abcdef3 = bmd_kbd_auth_claim 0x123456789abcdef3 ∧
        bmd_kbd_auth 0x123456789abcdef3 < 2 ^ 64) :=
  ⟨by norm_num, C2_auth_response_derivation 0x123456789abcdef3 (by norm_num)⟩

/-- C1: the session loop's authentication scheduling, evaluated at a
concrete failing scenario. With `auth_time = 600` and iterations at elapsed
595 s and 596 s since loop start (the handshake returning 600 each time),
the code re-authenticates on BOTH iterations (`codeAuthRun`), because
`auth_instant` is taken once and never reset; the claim's schedule
(`claimAuthRun`, elapsed measured from the last successful authentication)
re-authenticates only on the first of the two. -/
theorem C1_auth_schedule_divergence :
    codeAuthRun 600 [(595, 600), (596, 600)] = [true, true] ∧
      claimAuthRun 600 0 [(595, 600), (596, 600)] = [true, false] := by
  decide

/-- C9: report decoding is total and classified: the empty byte sequence
decodes to the source's empty-report error, any first byte other than
0x03/0x04/0x07 decodes to the "unknown report" error, and on every input the
decoder returns either a report or an error (never panics — the embedding is
a total function). -/
theorem C9_decode_total_classified (bs : List Nat) :
    (bs = [] → report_tryFrom bs = .error "") ∧
    (∀ h rest, bs = h :: rest → h ≠ 0x03 → h ≠ 0x04 → h ≠ 0x07 →
      report_tryFrom bs = .error "unknown report") ∧
    ((∃ r, report_tryFrom bs = .ok r) ∨ ∃ msg, report_tryFrom bs = .error msg) := by
  refine ⟨?_, ?_, ?_⟩
  · rintro rfl; rfl
  · rintro h rest rfl h3 h4 h7
    simp [report_tryFrom, h3, h4, h7]
  · cases hr : report_tryFrom bs with
    | ok r => exact .inl ⟨r, rfl⟩
    | error e => exact .inr ⟨e, rfl⟩

/-- Witness for C9 at the empty sequence and at first byte 0x05. -/
theorem C9_decode_total_classified_witness :
    report_tryFrom [] = .error "" ∧ report_tryFrom [0x05, 0x00] = .error "unknown report" :=
  ⟨(C9_decode_total_classified []).1 rfl,
    (C9_decode_total_classified [0x05, 0x00]).2.1 0x05 [0x00] rfl
      (by decide) (by decide) (by decide)⟩

/-- C8: a battery report (first byte 0x07) decodes only at total length 3;
the charging flag is true iff byte 1 equals 0x01 exactly, and the level is
byte 2 unchanged. -/
theorem C8_battery_decode (b1 b2 : Nat) (rest : List Nat) :
    (rest.length ≠ 2 →
      report_tryFrom (0x07 :: rest) = .error "invalid length for battery report") ∧
    (∃ ch, report_tryFrom [0x07, b1, b2] = .ok (.Battery ch b2) ∧ (ch = true ↔ b1 = 0x01)) := by
  constructor
  · intro hlen
    match rest with
    | [] => rfl
    | [_] => rfl
    | _ :: _ :: _ :: _ => rfl
    | [_, _] => exact absurd rfl hlen
  · exact ⟨b1 == 0x01, rfl, by simp⟩

/-- Witness for C8: a 2-byte battery buffer is rejected; `[0x07, 0x02, 0x64]`
decodes to not-charging at level 100. -/
theorem C8_battery_decode_witness :
    report_tryFrom [0x07, 0x05] = .error "invalid length for battery report" ∧
      report_tryFrom [0x07, 0x02, 0x64] = .ok (.Battery false 0x64) := by
  constructor
  · exact (C8_battery_decode 0 0 [0x05]).1 (by decide)
  · obtain ⟨ch, hch, hiff⟩ := (C8_battery_decode 0x02 0x64 []).2
    have : ch = false := by
      cases ch
      · rfl
      · exact absurd (hiff.mp rfl) (by decide)
    rw [this] at hch
    exact hch

/-- C5: a wheel report (first byte 0x03) decodes only at total length 7;
byte 1 must be in {0x00, 0x01, 0x02, 0x03} (0x00 and 0x02 both giving
`Relative`, 0x01 `AbsoluteContinuous`, 0x03 `AbsoluteDeadZero`), and the
value is the signed 32-bit little-endian integer of bytes 2..6: for byte
inputs it lies in `[-2^31, 2^31)` and is congruent modulo `2^32` to the
unsigned little-endian value. -/
theorem C5_wheel_decode (m b2 b3 b4 b5 b6 : Nat) (rest : List Nat) :
    (rest.length ≠ 6 →
      report_tryFrom (0x03 :: rest) = .error "invalid length for wheel report") ∧
    (4 ≤ m →
      report_tryFrom [0x03, m, b2, b3, b4, b5, b6] = .error "received invalid wheel mode") ∧
    report_tryFrom [0x03, 0x00, b2, b3, b4, b5, b6] =
      .ok (.Wheel .Relative (i32_from_le_bytes b2 b3 b4 b5)) ∧
    report_tryFrom [0x03, 0x02, b2, b3, b4, b5, b6] =
      .ok (.Wheel .Relative (i32_from_le_bytes b2 b3 b4 b5)) ∧
    report_tryFrom [0x03, 0x01, b2, b3, b4, b5, b6] =
      .ok (.Wheel .AbsoluteContinuous (i32_from_le_bytes b2 b3 b4 b5)) ∧
    report_tryFrom [0x03, 0x03, b2, b3, b4, b5, b6] =
      .ok (.Wheel .AbsoluteDeadZero (i32_from_le_bytes b2 b3 b4 b5)) ∧
    (b2 < 256 → b3 < 256 → b4 < 256 → b5 < 256 →
      -2 ^ 31 ≤ i32_from_le_bytes b2 b3 b4 b5 ∧ i32_from_le_bytes b2 b3 b4 b5 < 2 ^ 31 ∧
        i32_from_le_bytes b2 b3 b4 b5 % 2 ^ 32 =
          (b2 : Int) + b3 * 256 + b4 * 65536 + b5 * 16777216) := by
  refine ⟨?_, ?_, rfl, rfl, rfl, rfl, ?_⟩
  · intro hlen
    match rest with
    | [] => rfl
    | [_] => rfl
    | [_, _] => rfl
    | [_, _, _] => rfl
    | [_, _, _, _] => rfl
    | [_, _, _, _, _] => rfl
    | _ :: _ :: _ :: _ :: _ :: _ :: _ :: _ => rfl
    | [_, _, _, _, _, _] => exact absurd rfl hlen
  · intro hm
    obtain ⟨k, rfl⟩ : ∃ k, m = k + 4 := ⟨m - 4, by omega⟩
    rfl
  · intro h2 h3 h4 h5
    simp only [i32_from_le_bytes]
    split <;> push_cast <;> omega

/-- Witness for C5: a short wheel buffer is rejected; mode byte 0x04 is
rejected; `[0x03, 0x00, 0xfb, 0xff, 0xff, 0xff, 0x00]` decodes to a
`Relative` wheel report of velocity −5, which lies in `[-2^31, 2^31)` and is
congruent to `0xfffffffb` modulo `2^32`. -/
theorem C5_wheel_decode_witness :
    report_tryFrom [0x03, 0x00] = .error "invalid length for wheel report" ∧
      report_tryFrom [0x03, 0x04, 0, 0, 0, 0, 0] = .error "received invalid wheel mode" ∧
      report_tryFrom [0x03, 0x00, 0xfb, 0xff, 0xff, 0xff, 0x00] =
        .ok (.Wheel .Relative (i32_from_le_bytes 0xfb 0xff 0xff 0xff)) ∧
      -2 ^ 31 ≤ i32_from_le_bytes 0xfb 0xff 0xff 0xff ∧
      i32_from_le_bytes 0xfb 0xff 0xff 0xff < 2 ^ 31 ∧
      i32_from_le_bytes 0xfb 0xff 0xff 0xff % 2 ^ 32 =
        (0xfb : Int) + 0xff * 256 + 0xff * 65536 + 0xff * 16777216 := by
  refine ⟨(C5_wheel_decode 0 0 0 0 0 0 [0x00]).1 (by decide),
    (C5_wheel_decode 0x04 0 0 0 0 0 []).2.1 (by decide),
    (C5_wheel_decode 0 0xfb 0xff 0xff 0xff 0x00 []).2.2.1, ?_⟩
  have h := (C5_wheel_decode 0 0xfb 0xff 0xff 0xff 0x00 []).2.2.2.2.2.2
    (by decide) (by decide) (by decide) (by decide)
  exact ⟨h.1, h.2.1, h.2.2⟩

theorem parseButtonBytes_ok_iff : ∀ bs : List Nat,
    (∃ L, parseButtonBytes bs = .ok L) ↔
      ∀ v ∈ slotValues bs, v ≠ 0 → (button_tryFrom v).isOk
  | [] => by simp [parseButtonBytes, slotValues]
  | [a] => by simp [parseButtonBytes, slotValues]
  | lo :: hi :: rest => by
    have ih := parseButtonBytes_ok_iff rest
    by_cases h0 : u16_from_le_bytes lo hi = 0
    · simp only [parseButtonBytes, slotValues, h0, if_neg (by simp : ¬(0 : Nat) ≠ 0)]
      simp only [List.mem_cons]
      constructor
      · rintro hL v (rfl | hv) hnz
        · exact absurd rfl hnz
        · exact (ih.mp hL) v hv hnz
      · intro hall
        exact ih.mpr fun v hv hnz => hall v (.inr hv) hnz
    · cases hb : button_tryFrom (u16_from_le_bytes lo hi) with
      | error e =>
        simp only [parseButtonBytes, slotValues, if_pos h0, hb]
        constructor
        · rintro ⟨L, hL⟩
          cases hL
        · intro hall
          have hok := hall (u16_from_le_bytes lo hi) (by simp) h0
          rw [hb] at hok
          simp [Except.isOk, Except.toBool] at hok
      | ok b =>
        simp only [parseButtonBytes, slotValues, if_pos h0, hb]
        constructor
        · rintro ⟨L, hL⟩ v hv hnz
          simp only [List.mem_cons] at hv
          rcases hv with rfl | hv
          · rw [hb]; rfl
          · cases hp : parseButtonBytes rest with
            | error e => rw [hp] at hL; cases hL
            | ok L' => exact (ih.mp ⟨L', hp⟩) v hv hnz
        · intro hall
          obtain ⟨L', hL'⟩ := ih.mpr fun v hv hnz => hall v (by simp [hv]) hnz
          exact ⟨b :: L', by rw [hL']⟩

theorem parseButtonBytes_ok_map : ∀ (bs : List Nat) (L : List Button),
    parseButtonBytes bs = .ok L →
      L.map (fun b => (Except.ok b : Except String Button)) =
        ((slotValues bs).filter (fun v => v ≠ 0)).map button_tryFrom
  | [], L, hL => by
    cases hL
    simp [slotValues]
  | [a], L, hL => by
    cases hL
    simp [slotValues]
  | lo :: hi :: rest, L, hL => by
    by_cases h0 : u16_from_le_bytes lo hi = 0
    · simp only [parseButtonBytes, h0, if_neg (by simp : ¬(0 : Nat) ≠ 0)] at hL
      have ih := parseButtonBytes_ok_map rest L hL
      simpa [slotValues, h0] using ih
    · simp only [parseButtonBytes, if_pos h0] at hL
      cases hb : button_tryFrom (u16_from_le_bytes lo hi) with
      | error e => rw [hb] at hL; cases hp : parseButtonBytes rest <;> rw [hp] at hL <;> cases hL
      | ok b =>
        rw [hb] at hL
        cases hp : parseButtonBytes rest with
        | error e => rw [hp] at hL; cases hL
        | ok L' =>
          rw [hp] at hL
          cases hL
          have ih := parseButtonBytes_ok_map rest L' hp
          simp [slotValues, h0, hb, ih]

/-- C4: a buttons report (first byte 0x04) decodes only at total length 13;
the payload is read as six 16-bit little-endian slots (`slotValues`), the
decode succeeds iff every non-zero slot value has a `Button` mapping (an
unmapped non-zero slot fails the whole decode, with no partial result), and
on success the decoded list is exactly the slot-order decode of the non-zero
slots, its length the count of non-zero slots. -/
theorem C4_buttons_decode (rest : List Nat) :
    (rest.length ≠ 12 →
      report_tryFrom (0x04 :: rest) = .error "invalid length for button report") ∧
    (rest.length = 12 →
      ((∃ L, report_tryFrom (0x04 :: rest) = .ok (.Buttons L)) ↔
        ∀ v ∈ slotValues rest, v ≠ 0 → (button_tryFrom v).isOk) ∧
      (∀ L, report_tryFrom (0x04 :: rest) = .ok (.Buttons L) →
        L.map (fun b => (Except.ok b : Except String Button)) =
          ((slotValues rest).filter (fun v => v ≠ 0)).map button_tryFrom ∧
        L.length = ((slotValues rest).filter (fun v => v ≠ 0)).length) ∧
      ((¬ ∀ v ∈ slotValues rest, v ≠ 0 → (button_tryFrom v).isOk) →
        ∃ msg, report_tryFrom (0x04 :: rest) = .error msg)) := by
  constructor
  · intro hlen
    simp [report_tryFrom, hlen]
  · intro hlen
    have hred : report_tryFrom (0x04 :: rest) =
        match parseButtonBytes rest with
        | .ok bs => .ok (.Buttons bs)
        | .error e => .error e := by
      simp [report_tryFrom, hlen]
    refine ⟨?_, ?_, ?_⟩
    · rw [← parseButtonBytes_ok_iff]
      constructor
      · rintro ⟨L, hL⟩
        rw [hred] at hL
        cases hp : parseButtonBytes rest with
        | ok a => exact ⟨a, rfl⟩
        | error e => rw [hp] at hL; cases hL
      · rintro ⟨L, hL⟩
        exact ⟨L, by rw [hred, hL]⟩
    · intro L hL
      rw [hred] at hL
      cases hp : parseButtonBytes rest with
      | error e => rw [hp] at hL; cases hL
      | ok a =>
        rw [hp] at hL
        simp at hL
        subst hL
        have hm := parseButtonBytes_ok_map rest _ hp
        refine ⟨hm, ?_⟩
        have hlm := congrArg List.length hm
        simpa using hlm
    · intro hfail
      rw [← parseButtonBytes_ok_iff] at hfail
      cases hp : parseButtonBytes rest with
      | ok a => exact (hfail ⟨a, hp⟩).elim
      | error e => exact ⟨e, by rw [hred, hp]⟩

/-- Witness for C4: a 13-byte buffer with slots 0x0001 and 0x000f and four
zero slots decodes successfully; a 2-byte buffer is rejected for length; a
13-byte buffer whose first slot is the unmapped value 0x0012 fails as a
whole. -/
theorem C4_buttons_decode_witness :
    (∃ L, report_tryFrom (0x04 :: [0x01, 0x00, 0x0f, 0x00, 0, 0, 0, 0, 0, 0, 0, 0]) =
      .ok (.Buttons L)) ∧
    report_tryFrom (0x04 :: [0x01, 0x00]) = .error "invalid length for button report" ∧
    ∃ msg, report_tryFrom (0x04 :: [0x12, 0x00, 0, 0, 0, 0, 0, 0, 0, 0, 0, 0]) = .error msg :=
  ⟨((C4_buttons_decode [0x01, 0x00, 0x0f, 0x00, 0, 0, 0, 0, 0, 0, 0, 0]).2
      (by decide)).1.mpr (by decide),
    (C4_buttons_decode [0x01, 0x00]).1 (by decide),
    ((C4_buttons_decode [0x12, 0x00, 0, 0, 0, 0, 0, 0, 0, 0, 0, 0]).2
      (by decide)).2.2 (by decide)⟩

/-- C3: the button-change invocations of one buttons dispatch, for stored
set `P` and newly decoded list `N`: `(b, false)` occurs exactly for the
buttons in `P` but not in `N`, `(b, true)` exactly for the buttons of `N`, a
button absent from both is never notified, all releases precede all presses
(the first `k` events are releases and the rest are exactly `N`'s presses in
wire order), and the loop's dispatch emits exactly these invocations. -/
theorem C3_button_edge_dispatch (P N : List Button) :
    (∀ b : Button,
      ((b, false) ∈ buttonEvents P N ↔ b ∈ P ∧ b ∉ N) ∧
      ((b, true) ∈ buttonEvents P N ↔ b ∈ N) ∧
      (b ∉ P → b ∉ N → ∀ pr, (b, pr) ∉ buttonEvents P N)) ∧
    (∃ k, (∀ e ∈ (buttonEvents P N).take k, e.2 = false) ∧
      (buttonEvents P N).drop k = N.map (fun b => (b, true))) ∧
    (∀ inner : InnerState,
      (dispatch inner (Report.Buttons N)).2 =
        (buttonEvents inner.pressed_buttons N).map (fun e => Event.buttonChange e.1 e.2)) := by
  refine ⟨fun b => ⟨?_, ?_, ?_⟩, ?_, ?_⟩
  · simp [buttonEvents]
  · simp [buttonEvents]
  · intro hP hN pr
    cases pr
    · simp [buttonEvents]
      intro hmem
      exact absurd hmem hP
    · simp [buttonEvents]
      exact hN
  · refine ⟨((P.filter (fun b => decide (b ∉ N))).map (fun b => (b, false))).length, ?_, ?_⟩
    · intro e he
      rw [buttonEvents, List.take_left] at he
      simp at he
      obtain ⟨a, _, rfl, rfl⟩ := he
      rfl
    · rw [buttonEvents, List.drop_left]
  · intro inner
    simp [dispatch, dispatchButtonsSteps]

/-- Witness for C3 on the spec's example `{A,B} → {B,C}` with
`A = Cam1, B = Cam2, C = Cam3`: the release of `Cam1` is reported, the
press of `Cam3` is reported, and the uninvolved `Cut` is never notified. -/
theorem C3_button_edge_dispatch_witness :
    (Button.Cam1, false) ∈ buttonEvents [.Cam1, .Cam2] [.Cam2, .Cam3] ∧
      (Button.Cam3, true) ∈ buttonEvents [.Cam1, .Cam2] [.Cam2, .Cam3] ∧
      (Button.Cut, true) ∉ buttonEvents [.Cam1, .Cam2] [.Cam2, .Cam3] :=
  ⟨((C3_button_edge_dispatch [.Cam1, .Cam2] [.Cam2, .Cam3]).1 .Cam1).1.mpr (by decide),
    ((C3_button_edge_dispatch [.Cam1, .Cam2] [.Cam2, .Cam3]).1 .Cam3).2.1.mpr (by decide),
    ((C3_button_edge_dispatch [.Cam1, .Cam2] [.Cam2, .Cam3]).1 .Cut).2.2
      (by decide) (by decide) true⟩

/-- C10: the buttons dispatch replaces the stored pressed set with the new
snapshot before invoking any button-change callback: after the dispatch the
stored set is the new list, and every invocation of the batch observes the
new list as the shared pressed set. -/
theorem C10_snapshot_before_callbacks (inner : InnerState) (buttons : List Button) :
    (dispatchButtonsSteps inner buttons).1.pressed_buttons = buttons ∧
    ∀ e ∈ (dispatchButtonsSteps inner buttons).2, e.2 = buttons := by
  refine ⟨rfl, ?_⟩
  intro e he
  simp only [dispatchButtonsSteps, List.mem_map] at he
  obtain ⟨a, _, rfl⟩ := he
  rfl

/-- Witness for C10 at a release-then-press batch: dispatching `[Cam2]` over
stored `[Cam1]`, the release invocation for `Cam1` already observes
`[Cam2]`. -/
theorem C10_snapshot_before_callbacks_witness :
    ((Button.Cam1, false), [Button.Cam2]) ∈
        (dispatchButtonsSteps ⟨[.Cam1], .Off, .Off⟩ [.Cam2]).2 ∧
      (((Button.Cam1, false), [Button.Cam2]) : (Button × Bool) × List Button).2 = [.Cam2] :=
  ⟨by decide,
    (C10_snapshot_before_callbacks ⟨[.Cam1], .Off, .Off⟩ [.Cam2]).2 _ (by decide)⟩

/-- C6: in every loop iteration, an LED command is written for a channel iff
that channel's target differs from the last pushed value (or nothing has
been pushed yet); the button command is exactly `[0x02]` followed by the
32-bit mask little-endian (5 bytes) and the wheel command exactly
`[0x04, mask]` (2 bytes); the caches are updated to the current targets, so
a second iteration with the same targets writes nothing; and the iteration's
writes are exactly the LED phase's writes. -/
theorem C6_led_dedup (cache : LedCache) (bl : ButtonLed) (wl : WheelLed)
    (inner : InnerState) (input : PollInput) :
    (ledPhase cache bl wl).2 =
      (if cache.last_button_led = some bl then [] else [0x02 :: le32 bl.mask]) ++
        (if cache.last_wheel_led = some wl then [] else [[0x04, wl.mask]]) ∧
    (ledPhase cache bl wl).1 = ⟨some bl, some wl⟩ ∧
    (ledPhase (ledPhase cache bl wl).1 bl wl).2 = [] ∧
    (pollerIteration inner cache input).ledWrites =
      (ledPhase cache inner.button_led inner.wheel_led).2 := by
  obtain ⟨lb, lw⟩ := cache
  refine ⟨?_, ?_, ?_, ?_⟩
  · cases lb <;> cases lw <;>
      simp [ledPhase, set_button_led_bytes, set_wheel_led_bytes] <;>
      split_ifs <;> simp_all
  · cases lb <;> cases lw <;> simp [ledPhase] <;> split_ifs <;> simp_all
  · cases lb <;> cases lw <;> simp [ledPhase] <;> split_ifs <;> simp_all
  · cases hp : poll_model input <;> simp [pollerIteration, hp]

/-- C7: an iteration whose poll fails — a transport read error, a
zero-length (timed-out) read, or a decode failure of the read bytes — does
not terminate the loop (outcome `yielded`, i.e. the `continue` arm), invokes
no callback, and leaves the shared session state untouched by the dispatch
phase. -/
theorem C7_poll_failure_transient (inner : InnerState) (cache : LedCache)
    (input : PollInput)
    (h : input = PollInput.readError ∨
      ∃ bs, input = PollInput.bytes bs ∧ (bs = [] ∨ ∀ r, report_tryFrom bs ≠ .ok r)) :
    (pollerIteration inner cache input).inner = inner ∧
    (pollerIteration inner cache input).events = [] ∧
    (pollerIteration inner cache input).outcome = IterOutcome.yielded := by
  have hp : ∃ msg, poll_model input = .error msg := by
    rcases h with rfl | ⟨bs, rfl, hbs | hdec⟩
    · exact ⟨_, rfl⟩
    · subst hbs; exact ⟨_, rfl⟩
    · by_cases h0 : bs.length = 0
      · exact ⟨"received empty report", by simp [poll_model, h0]⟩
      · cases hr : report_tryFrom bs with
        | ok r => exact absurd hr (hdec r)
        | error e => exact ⟨"failed to parse report", by simp [poll_model, h0, hr]⟩
  obtain ⟨msg, hmsg⟩ := hp
  simp [pollerIteration, hmsg]

/-- Witness for C7: a read error, an empty read, and an undecodable 1-byte
read each leave the state unchanged, produce no events, and yield. -/
theorem C7_poll_failure_transient_witness :
    (pollerIteration ⟨[], .Off, .Off⟩ ⟨none, none⟩ .readError).inner = ⟨[], .Off, .Off⟩ ∧
      (pollerIteration ⟨[], .Off, .Off⟩ ⟨none, none⟩ (.bytes [0x09])).events = [] ∧
      (pollerIteration ⟨[], .Off, .Off⟩ ⟨none, none⟩ (.bytes [])).outcome =
        IterOutcome.yielded :=
  ⟨(C7_poll_failure_transient ⟨[], .Off, .Off⟩ ⟨none, none⟩ .readError (.inl rfl)).1,
    (C7_poll_failure_transient ⟨[], .Off, .Off⟩ ⟨none, none⟩ (.bytes [0x09])
      (.inr ⟨[0x09], rfl, .inr (fun _ h => Except.noConfusion h)⟩)).2.1,
    (C7_poll_failure_transient ⟨[], .Off, .Off⟩ ⟨none, none⟩ (.bytes [])
      (.inr ⟨[], rfl, .inl rfl⟩)).2.2⟩

end Bmdse
